import Mathlib

/-
Verification development for the valo-machine-learning chat rendering core.

The repository parts embedded here:
  - parseMessageContent (ChatBubble source, lines 177-249): a regex-driven
    splitter turning a raw chat message string into typed content tokens.
  - useTypewriter (lines 253-282): the timer-driven character reveal hook.
  - the chat message store of ChatWidget.tsx (sendMessage and friends).
  - AgentIcon (lines 124-146): case-insensitive icon lookup with fallback.

Strings are modelled as List Char (JavaScript strings are sequences of
code units; every input of interest here is plain text).  The JavaScript
regexes are small and fixed, so each is translated into an explicit
executable matcher whose backtracking choice points mirror the greedy
semantics of the original pattern; comments at each definition say which
pattern it embeds.
-/

/-- jsWs models the JavaScript whitespace class: the set matched by the
regex class for whitespace and stripped by String.prototype.trim
(tab, LF, VT, FF, CR, space, NBSP, Ogham space, the U+2000 block,
LS, PS, NNBSP, MMSP, ideographic space, BOM). -/
def jsWs (c : Char) : Bool :=
  [9, 10, 11, 12, 13, 32, 160, 0x1680,
   0x2000, 0x2001, 0x2002, 0x2003, 0x2004, 0x2005, 0x2006, 0x2007,
   0x2008, 0x2009, 0x200a, 0x2028, 0x2029, 0x202f, 0x205f, 0x3000,
   0xfeff].contains c.toNat

/-- jsTrim models String.prototype.trim: drop jsWs characters from both
ends of the string. -/
def jsTrim (cs : List Char) : List Char :=
  ((cs.dropWhile jsWs).reverse.dropWhile jsWs).reverse

/-- jsDigit models the regex digit class: the ASCII digits 0-9. -/
def jsDigit (c : Char) : Bool :=
  48 ≤ c.toNat && c.toNat ≤ 57

/-- digitsToNat models parseInt applied to a nonempty decimal digit
string, as done on the captured value group of the ProgressBar pattern. -/
def digitsToNat (ds : List Char) : Nat :=
  ds.foldl (fun n c => n * 10 + (c.toNat - 48)) 0

/-- litMatch pat cs matches the literal character sequence pat at the
start of cs, returning the remainder on success (the building block for
every literal piece of the source regexes). -/
def litMatch : List Char → List Char → Option (List Char)
  | [], cs => some cs
  | _ :: _, [] => none
  | p :: ps, c :: cs => if p = c then litMatch ps cs else none

/-- scanToGt splits its input at the first occurrence of the character
GREATER-THAN: it returns (run, rest) with input = run ++ GT :: rest and
no GT inside run, or none when the input has no GT at all. -/
def scanToGt : List Char → Option (List Char × List Char)
  | [] => none
  | c :: cs =>
      if c = '>' then some ([], cs)
      else (scanToGt cs).map fun p => (c :: p.1, p.2)

-- ============ COMBINED WIDGET DETECTION ============
-- Source line 189:
--   const combinedPattern = /(<ProgressBar[^>]+\/>|<AgentIcon[^>]+\/>|<StatCard[^>]+\/>)/g;

/-- pbTag is the literal tag-name prefix of the ProgressBar alternative. -/
def pbTag : List Char := "<ProgressBar".toList

/-- aiTag is the literal tag-name prefix of the AgentIcon alternative. -/
def aiTag : List Char := "<AgentIcon".toList

/-- scTag is the literal tag-name prefix of the StatCard alternative. -/
def scTag : List Char := "<StatCard".toList

/-- tryTagWith tag cs matches one alternative of the combined pattern,
anchored at the start of cs: the literal tag name, then one or more
non-GT characters, then the two characters SLASH GT.  Because the
character class excludes GT, the greedy run with backtracking succeeds
exactly when the first GT after the tag name is preceded by a SLASH that
is itself preceded by at least one class character; the match extends to
that first GT.  Returns (matched substring, remainder). -/
def tryTagWith (tag cs : List Char) : Option (List Char × List Char) :=
  match litMatch tag cs with
  | none => none
  | some rest =>
      match scanToGt rest with
      | none => none
      | some (run, rest2) =>
          if 2 ≤ run.length ∧ run.getLast? = some '/' then
            some (tag ++ run ++ ['>'], rest2)
          else none

/-- tryTag cs tries the three alternatives of the combined pattern at the
start of cs, in the order they appear in the source. -/
def tryTag (cs : List Char) : Option (List Char × List Char) :=
  match tryTagWith pbTag cs with
  | some r => some r
  | none =>
      match tryTagWith aiTag cs with
      | some r => some r
      | none => tryTagWith scTag cs

/-- findWidget cs finds the leftmost combined-pattern match in cs, as
combinedPattern.exec does from the current lastIndex: it returns
(before, match, after) with cs = before ++ match ++ after, or none. -/
def findWidget : List Char → Option (List Char × List Char × List Char)
  | [] => none
  | c :: cs =>
      match tryTag (c :: cs) with
      | some (m, rest) => some ([], m, rest)
      | none =>
          match findWidget cs with
          | none => none
          | some (b, m, a) => some (c :: b, m, a)

/-- Piece is one step of the while loop over combinedPattern.exec: a gap
of plain text between matches (possibly empty) or one matched widget
substring. -/
inductive Piece where
  | gap (t : List Char) : Piece
  | mat (m : List Char) : Piece
deriving DecidableEq

/-- scanAux fuel cs runs the exec loop: each iteration emits the gap
before the next combined match and the match itself, then continues
after it.  The loop consumes at least one character per iteration, so
fuel = length of the input is enough; when no match remains the whole
remainder is one final gap. -/
def scanAux : Nat → List Char → List Piece
  | 0, cs => [Piece.gap cs]
  | fuel + 1, cs =>
      match findWidget cs with
      | none => [Piece.gap cs]
      | some (b, m, a) => Piece.gap b :: Piece.mat m :: scanAux fuel a

/-- scanPieces cs is the full decomposition of cs produced by the
combined-pattern exec loop of parseMessageContent. -/
def scanPieces (cs : List Char) : List Piece :=
  scanAux cs.length cs

-- ============ SPECIFIC ATTRIBUTE PATTERNS ============
-- Source lines 204, 213, 222: the per-tag regexes applied with exec to
-- the matched widget substring (unanchored, leftmost match, trailing
-- characters after the match ignored).

/-- plusSplits p cs enumerates the candidate splits of a greedy
one-or-more repetition of the class p at the start of cs, longest
first (the backtracking order of the regex engine). -/
def plusSplits (p : Char → Bool) (cs : List Char) : List (List Char × List Char) :=
  let n := (cs.takeWhile p).length
  (List.range n).map fun i => (cs.take (n - i), cs.drop (n - i))

/-- starSplits p cs enumerates the candidate splits of a greedy
zero-or-more repetition of the class p at the start of cs, longest
first down to the empty repetition. -/
def starSplits (p : Char → Bool) (cs : List Char) : List (List Char × List Char) :=
  let n := (cs.takeWhile p).length
  (List.range (n + 1)).map fun i => (cs.take (n - i), cs.drop (n - i))

/-- optChar c cs enumerates the candidate remainders of a greedy
optional literal character (consume it if present, else skip). -/
def optChar (c : Char) (cs : List Char) : List (List Char) :=
  match cs with
  | d :: rest => if d = c then [rest, cs] else [cs]
  | [] => [cs]

/-- optQuoted key cs enumerates the candidates of a greedy optional
group of the shape key, a quote, a captured nonempty run of non-quote
characters, and a closing quote — as in the optional color and trend
groups.  Taken candidates come first, skipping the group last. -/
def optQuoted (key : List Char) (cs : List Char) : List (Option (List Char) × List Char) :=
  (match litMatch key cs with
   | none => []
   | some rest =>
       (plusSplits (fun c => c != '"') rest).filterMap fun p =>
         match litMatch ['"'] p.2 with
         | some rest2 => some (some p.1, rest2)
         | none => none)
  ++ [(none, cs)]

/-- PBCaps holds the capture groups of the ProgressBar pattern. -/
structure PBCaps where
  label : List Char
  value : Nat
  color : Option (List Char)
deriving DecidableEq

/-- AICaps holds the capture group of the AgentIcon pattern. -/
structure AICaps where
  name : List Char
deriving DecidableEq

/-- SCCaps holds the capture groups of the StatCard pattern. -/
structure SCCaps where
  label : List Char
  value : List Char
  trend : Option (List Char)
deriving DecidableEq

/-- pbAt matches the ProgressBar attribute pattern anchored at the start
of cs, mirroring source line 204 with its greedy pieces in order; on
success it returns the captures and the remainder after the match. -/
def pbAt (cs : List Char) : Option (PBCaps × List Char) :=
  (litMatch pbTag cs).bind fun cs1 =>
  (plusSplits jsWs cs1).findSome? fun s1 =>
  (litMatch "label=\"".toList s1.2).bind fun cs2 =>
  (plusSplits (fun c => c != '"') cs2).findSome? fun lab =>
  (litMatch ['"'] lab.2).bind fun cs3 =>
  (plusSplits jsWs cs3).findSome? fun s2 =>
  (litMatch "value=".toList s2.2).bind fun cs4 =>
  (optChar '{' cs4).findSome? fun cs5 =>
  (plusSplits jsDigit cs5).findSome? fun ds =>
  (optChar '}' ds.2).findSome? fun cs6 =>
  (starSplits jsWs cs6).findSome? fun s3 =>
  (optQuoted "color=\"".toList s3.2).findSome? fun col =>
  (starSplits jsWs col.2).findSome? fun s4 =>
  (litMatch "/>".toList s4.2).map fun cs7 =>
  ({ label := lab.1, value := digitsToNat ds.1, color := col.1 }, cs7)

/-- aiAt matches the AgentIcon attribute pattern anchored at the start
of cs, mirroring source line 213. -/
def aiAt (cs : List Char) : Option (AICaps × List Char) :=
  (litMatch aiTag cs).bind fun cs1 =>
  (plusSplits jsWs cs1).findSome? fun s1 =>
  (litMatch "name=\"".toList s1.2).bind fun cs2 =>
  (plusSplits (fun c => c != '"') cs2).findSome? fun nm =>
  (litMatch ['"'] nm.2).bind fun cs3 =>
  (starSplits jsWs cs3).findSome? fun s2 =>
  (litMatch "/>".toList s2.2).map fun cs4 =>
  ({ name := nm.1 }, cs4)

/-- scAt matches the StatCard attribute pattern anchored at the start of
cs, mirroring source line 222. -/
def scAt (cs : List Char) : Option (SCCaps × List Char) :=
  (litMatch scTag cs).bind fun cs1 =>
  (plusSplits jsWs cs1).findSome? fun s1 =>
  (litMatch "label=\"".toList s1.2).bind fun cs2 =>
  (plusSplits (fun c => c != '"') cs2).findSome? fun lab =>
  (litMatch ['"'] lab.2).bind fun cs3 =>
  (plusSplits jsWs cs3).findSome? fun s2 =>
  (litMatch "value=\"".toList s2.2).bind fun cs4 =>
  (plusSplits (fun c => c != '"') cs4).findSome? fun v =>
  (litMatch ['"'] v.2).bind fun cs5 =>
  (starSplits jsWs cs5).findSome? fun s3 =>
  (optQuoted "trend=\"".toList s3.2).findSome? fun tr =>
  (starSplits jsWs tr.2).findSome? fun s4 =>
  (litMatch "/>".toList s4.2).map fun cs6 =>
  ({ label := lab.1, value := v.1, trend := tr.1 }, cs6)

/-- execFirst f cs models RegExp.prototype.exec without the g flag:
return the match of the anchored matcher f at the leftmost position of
cs where it succeeds. -/
def execFirst {α : Type} (f : List Char → Option α) : List Char → Option α
  | [] => f []
  | c :: cs =>
      match f (c :: cs) with
      | some r => some r
      | none => execFirst f cs

-- ============ TOKEN EMISSION ============

/-- ParsedContent mirrors the ParsedContent interface of the source
(type, content, props): a text token carrying its payload, or one of the
three widget tokens carrying the props the source stores for it. -/
inductive ParsedContent where
  | text (content : List Char) : ParsedContent
  | progress (label : List Char) (value : Nat) (color : List Char) : ParsedContent
  | agent (name : List Char) : ParsedContent
  | stat (label : List Char) (value : List Char) (trend : List Char) : ParsedContent
deriving DecidableEq

/-- parseWidget models the per-match body of the exec loop (source
lines 200-230): dispatch on the tag-name prefix of the matched
substring, run the specific pattern over it, and emit the typed token
with defaults for the optional captures (color defaults to red, trend
to neutral); a failing specific parse emits nothing. -/
def parseWidget (w : List Char) : List ParsedContent :=
  if (litMatch pbTag w).isSome then
    match execFirst pbAt w with
    | some (caps, _) =>
        [ParsedContent.progress caps.label caps.value (caps.color.getD "red".toList)]
    | none => []
  else if (litMatch aiTag w).isSome then
    match execFirst aiAt w with
    | some (caps, _) => [ParsedContent.agent caps.name]
    | none => []
  else if (litMatch scTag w).isSome then
    match execFirst scAt w with
    | some (caps, _) =>
        [ParsedContent.stat caps.label caps.value (caps.trend.getD "neutral".toList)]
    | none => []
  else []

/-- emitGap models the text-segment handling of the loop (source lines
193-198 and 236-241): trim the segment and emit a text token only when
the trimmed result is nonempty. -/
def emitGap (t : List Char) : List ParsedContent :=
  if jsTrim t = [] then [] else [ParsedContent.text (jsTrim t)]

/-- emitPiece turns one piece of the scan into the tokens the loop
pushes for it. -/
def emitPiece : Piece → List ParsedContent
  | Piece.gap t => emitGap t
  | Piece.mat m => parseWidget m

/-- emitAll concatenates the tokens pushed for each piece in order. -/
def emitAll : List Piece → List ParsedContent
  | [] => []
  | p :: ps => emitPiece p ++ emitAll ps

/-- parseParts cs is the parts array just before the fallback check of
source line 244. -/
def parseParts (cs : List Char) : List ParsedContent :=
  emitAll (scanPieces cs)

/-- parseMessageContent is the full parser (source lines 177-249): the
exec loop over the combined pattern, per-match specific parsing, trimmed
gap emission, and the single-token fallback pushing the entire untouched
input when no token was produced. -/
def parseMessageContent (content : List Char) : List ParsedContent :=
  if (parseParts content).isEmpty then [ParsedContent.text content]
  else parseParts content

-- ============ TOKEN SPANS (for the partition claim) ============

/-- spanChars gives, for one piece of the scan, the span of the input
that the emitted token stands for, as the partition claim reads it: a
text token stands for its own payload (the trimmed segment), a widget
token stands for its matched tag substring, and a piece that emitted no
token contributes nothing. -/
def spanChars : Piece → List Char
  | Piece.gap t => if jsTrim t = [] then [] else jsTrim t
  | Piece.mat m => if (parseWidget m).isEmpty then [] else m

/-- spanJoin concatenates the spans of the emitted tokens in order. -/
def spanJoin : List Piece → List Char
  | [] => []
  | p :: ps => spanChars p ++ spanJoin ps

/-- joinPieces concatenates the raw characters of the scan pieces in
order, with no trimming and no dropping. -/
def joinPieces : List Piece → List Char
  | [] => []
  | p :: ps =>
      (match p with
       | Piece.gap t => t
       | Piece.mat m => m) ++ joinPieces ps

-- ============ TYPEWRITER HOOK ============
-- Source lines 253-282 (useTypewriter).

/-- TWState is the observable state of one useTypewriter invocation:
the two pieces of React state it owns plus the interval loop position
(currentIndex) and whether the interval is still scheduled. -/
structure TWState where
  displayedText : List Char
  isComplete : Bool
  currentIndex : Nat
  timerActive : Bool
deriving DecidableEq

/-- useTypewriterInit models the effect body up to the first tick: with
animation enabled it resets to the empty reveal at index 0 with the
interval running; with animation disabled it sets the full text,
reports complete, and never schedules the interval. -/
def useTypewriterInit (text : List Char) (enabled : Bool) : TWState :=
  if enabled then
    { displayedText := [], isComplete := false, currentIndex := 0, timerActive := true }
  else
    { displayedText := text, isComplete := true, currentIndex := 0, timerActive := false }

/-- twTick models one firing of the interval callback: while the index
is below the text length it displays the slice up to index + 1 and
increments the index; otherwise it marks completion and clears the
interval.  A cleared interval never fires again, modelled by the
identity on states whose timer is inactive. -/
def twTick (text : List Char) (s : TWState) : TWState :=
  if s.timerActive then
    if s.currentIndex < text.length then
      { s with displayedText := text.take (s.currentIndex + 1),
               currentIndex := s.currentIndex + 1 }
    else
      { s with isComplete := true, timerActive := false }
  else s

/-- twCancel models the effect cleanup (clearInterval): the interval is
cancelled synchronously; displayed state is untouched. -/
def twCancel (s : TWState) : TWState :=
  { s with timerActive := false }

/-- iterTick runs n interval firings in order. -/
def iterTick (text : List Char) : Nat → TWState → TWState
  | 0, s => s
  | n + 1, s => iterTick text n (twTick text s)

-- ============ CHAT MESSAGE STORE ============
-- ChatWidget.tsx: the messages state and the operations that write it
-- (welcome effect, sendMessage, the fetch handlers, clearContext and
-- team selection).  The id and timestamp fields play no part in any
-- claim and are omitted; content is kept abstract per operation.

/-- Role is the role field of a chat message. -/
inductive Role where
  | user : Role
  | assistant : Role
deriving DecidableEq

/-- Msg mirrors the Message interface of ChatWidget.tsx restricted to
the fields the flag invariant is about. -/
structure Msg where
  role : Role
  content : List Char
  isNew : Bool
deriving DecidableEq

/-- ChatState is the store: the messages array and the isLoading flag
that serialises sends. -/
structure ChatState where
  messages : List Msg
  isLoading : Bool
deriving DecidableEq

/-- clearNew models the map over prev that sets isNew to false on every
existing message at the start of sendMessage (ChatWidget.tsx line 132). -/
def clearNew (ms : List Msg) : List Msg :=
  ms.map fun m => { m with isNew := false }

/-- chatErrText is the fixed transmission-error message content appended
when the fetch fails (ChatWidget.tsx line 182). -/
def chatErrText : List Char :=
  "TRANSMISSION ERROR".toList

/-- ChatStep is one atomic write to the store, one constructor per
setMessages site of ChatWidget.tsx: the welcome effect (fires only on an
empty list), the start of sendMessage (guarded by isLoading, clears
every flag then appends the flagged user message and starts loading),
the success and error continuations of the fetch (append a flagged
assistant message and stop loading), and the two resets (clearContext
and team selection). -/
inductive ChatStep : ChatState → ChatState → Prop
  | welcome (c : List Char) (l : Bool) :
      ChatStep ⟨[], l⟩ ⟨[⟨Role.assistant, c, true⟩], l⟩
  | send (t : List Char) (ms : List Msg) :
      ChatStep ⟨ms, false⟩ ⟨clearNew ms ++ [⟨Role.user, t, true⟩], true⟩
  | replyOk (t : List Char) (ms : List Msg) :
      ChatStep ⟨ms, true⟩ ⟨ms ++ [⟨Role.assistant, t, true⟩], false⟩
  | replyErr (ms : List Msg) :
      ChatStep ⟨ms, true⟩ ⟨ms ++ [⟨Role.assistant, chatErrText, true⟩], false⟩
  | clear (ms : List Msg) (l : Bool) :
      ChatStep ⟨ms, l⟩ ⟨[], l⟩

/-- ChatReachable holds for every store state reachable from the initial
empty store through the writes above. -/
inductive ChatReachable : ChatState → Prop
  | init : ChatReachable ⟨[], false⟩
  | step {s t : ChatState} : ChatReachable s → ChatStep s t → ChatReachable t

/-- ChatInv is the flag invariant the store actually maintains: the
flagged messages form a contiguous suffix of the list (everything before
it unflagged), and that suffix holds at most one user message. -/
def ChatInv (ms : List Msg) : Prop :=
  ∃ a b, ms = a ++ b ∧ (∀ m ∈ a, m.isNew = false) ∧ (∀ m ∈ b, m.isNew = true) ∧
    (b.filter fun m => decide (m.role = Role.user)).length ≤ 1

-- ============ AGENT ICON LOOKUP ============
-- Source lines 124-146 (AgentIcon).

/-- Glyph names the icon components the AgentIcon table can select. -/
inductive Glyph where
  | zap : Glyph
  | sword : Glyph
  | shield : Glyph
  | target : Glyph
  | brain : Glyph
  | crosshair : Glyph
deriving DecidableEq

/-- agentIcons is the fixed lookup table of the AgentIcon component,
keyed by lowercase agent name, with the generic crosshair under the
default key. -/
def agentIcons : List (List Char × Glyph) :=
  [("jett".toList, Glyph.zap), ("reyna".toList, Glyph.sword),
   ("sage".toList, Glyph.shield), ("sova".toList, Glyph.target),
   ("omen".toList, Glyph.brain), ("default".toList, Glyph.crosshair)]

/-- toLowerL models String.prototype.toLowerCase on the names involved
(all table keys are ASCII). -/
def toLowerL (cs : List Char) : List Char :=
  cs.map Char.toLower

/-- lookupGlyph is first-match association lookup in the table. -/
def lookupGlyph : List Char → List (List Char × Glyph) → Option Glyph
  | _, [] => none
  | k, (a, g) :: rest => if k = a then some g else lookupGlyph k rest

/-- protoProps lists the property keys every plain JavaScript object
literal inherits from Object.prototype, all of which read back as truthy
values (functions, and for the dunder-proto key the prototype object
itself). -/
def protoProps : List (List Char) :=
  ["constructor".toList, "hasOwnProperty".toList, "isPrototypeOf".toList,
   "propertyIsEnumerable".toList, "toLocaleString".toList, "toString".toList,
   "valueOf".toList, "__defineGetter__".toList, "__defineSetter__".toList,
   "__lookupGetter__".toList, "__lookupSetter__".toList, "__proto__".toList]

/-- IconVal is what the property read on the agentIcons object literal
can produce: one of the icon glyphs stored as own properties, or a
truthy non-icon value inherited from Object.prototype. -/
inductive IconVal where
  | icon (g : Glyph) : IconVal
  | inherited (k : List Char) : IconVal
deriving DecidableEq

/-- jsIndex models the JavaScript property read on the agentIcons object
literal: an own property when the key is one of the six table keys,
otherwise the inherited Object.prototype member when the key names one,
otherwise undefined. -/
def jsIndex (k : List Char) : Option IconVal :=
  match lookupGlyph k agentIcons with
  | some g => some (IconVal.icon g)
  | none => if k ∈ protoProps then some (IconVal.inherited k) else none

/-- agentIconFor models the icon selection of line 135: the property
read on the lowercased name, with the logical-or taking the crosshair
default only when the read produced undefined — every inherited
Object.prototype value is truthy and is kept as-is. -/
def agentIconFor (name : List Char) : IconVal :=
  (jsIndex (toLowerL name)).getD (IconVal.icon Glyph.crosshair)

-- ============ CONCRETE INPUTS USED BY THE CLAIM CHECKS ============

/-- c1ex is a message whose widget sits between single spaces, so the
emitted token spans lose those spaces. -/
def c1ex : List Char := "a <AgentIcon name=\"x\" /> b".toList

/-- c2ex embeds a tag-name prefix whose attributes fail the specific
pattern, flanked by plain text. -/
def c2ex : List Char := "x <ProgressBar oops /> y".toList

/-- c3ex is markup-free text with leading and trailing whitespace. -/
def c3ex : List Char := " a ".toList

/-- c3foo is the unrecognized tag-looking string of scenario B. -/
def c3foo : List Char := "<Foo bar=\"1\" />".toList

/-- c4ws is whitespace-only input, which exercises the single-token
fallback of line 244. -/
def c4ws : List Char := "   ".toList

/-- c5ex is the end-to-end scenario A message. -/
def c5ex : List Char :=
  "Weakness score is <ProgressBar label=\"Exploit\" value={72} color=\"red\" />. Watch their <AgentIcon name=\"Jett\" /> player.".toList

/-- c6ex is a single well-formed ProgressBar tag whose label contains a
GREATER-THAN character. -/
def c6ex : List Char := "<ProgressBar label=\"a>b\" value={5} />".toList

/-- c8ex is the store state after opening the widget (welcome), sending
one user message, and receiving the assistant reply. -/
def c8ex : ChatState :=
  ⟨[⟨Role.assistant, "w".toList, false⟩, ⟨Role.user, "u".toList, true⟩,
    ⟨Role.assistant, "r".toList, true⟩], false⟩

-- ============ HELPER LEMMAS ============

/-- A successful literal match splits the input. -/
theorem litMatch_split (ps : List Char) : ∀ cs r, litMatch ps cs = some r → cs = ps ++ r := by
  induction ps with
  | nil =>
    intro cs r h
    simp [litMatch] at h
    simp [h]
  | cons p ps ih =>
    intro cs r h
    cases cs with
    | nil => simp [litMatch] at h
    | cons c cs =>
      simp only [litMatch] at h
      by_cases hpc : p = c
      · rw [if_pos hpc] at h
        subst hpc
        rw [List.cons_append, ih cs r h]
      · rw [if_neg hpc] at h
        exact absurd h (by simp)

/-- A successful scan to the first GT splits the input there. -/
theorem scanToGt_split : ∀ cs run rest, scanToGt cs = some (run, rest) → cs = run ++ '>' :: rest := by
  intro cs
  induction cs with
  | nil => intro run rest h; simp [scanToGt] at h
  | cons c cs ih =>
    intro run rest h
    simp only [scanToGt] at h
    by_cases hc : c = '>'
    · rw [if_pos hc] at h
      simp at h
      obtain ⟨h1, h2⟩ := h
      subst h1; subst h2; subst hc
      simp
    · rw [if_neg hc] at h
      cases hs : scanToGt cs with
      | none => rw [hs] at h; simp at h
      | some p =>
        rw [hs] at h
        simp at h
        obtain ⟨h1, h2⟩ := h
        subst h1; subst h2
        rw [List.cons_append, ← ih p.1 p.2 hs]

/-- A successful combined-alternative match splits the input and is
nonempty. -/
theorem tryTagWith_split (tag cs m r : List Char) (h : tryTagWith tag cs = some (m, r)) :
    cs = m ++ r ∧ m ≠ [] := by
  unfold tryTagWith at h
  split at h
  · exact absurd h (by simp)
  · rename_i rest hl
    split at h
    · exact absurd h (by simp)
    · rename_i run rest2 hs
      split at h
      · injection h with h
        injection h with h1 h2
        subst h1; subst h2
        refine ⟨?_, by simp⟩
        rw [litMatch_split tag cs rest hl, scanToGt_split rest run rest2 hs]
        simp
      · exact absurd h (by simp)

/-- A successful combined-pattern match splits the input and is
nonempty. -/
theorem tryTag_split (cs m r : List Char) (h : tryTag cs = some (m, r)) :
    cs = m ++ r ∧ m ≠ [] := by
  unfold tryTag at h
  split at h
  · rename_i p h1
    injection h with h
    subst h
    exact tryTagWith_split pbTag cs m r h1
  · rename_i h1
    split at h
    · rename_i p h2
      injection h with h
      subst h
      exact tryTagWith_split aiTag cs m r h2
    · rename_i h2
      exact tryTagWith_split scTag cs m r h

/-- The leftmost combined match splits the input into before, match and
after, with a nonempty match. -/
theorem findWidget_split : ∀ cs b m a, findWidget cs = some (b, m, a) →
    cs = b ++ m ++ a ∧ m ≠ [] := by
  intro cs
  induction cs with
  | nil => intro b m a h; simp [findWidget] at h
  | cons c cs ih =>
    intro b m a h
    simp only [findWidget] at h
    split at h
    · rename_i m0 rest0 ht
      injection h with h
      injection h with h1 h
      injection h with h2 h3
      subst h1; subst h2; subst h3
      obtain ⟨hsplit, hne⟩ := tryTag_split (c :: cs) m0 rest0 ht
      exact ⟨by simpa using hsplit, hne⟩
    · rename_i ht
      split at h
      · exact absurd h (by simp)
      · rename_i b0 m0 a0 hf
        injection h with h
        injection h with h1 h
        injection h with h2 h3
        subst h1; subst h2; subst h3
        obtain ⟨hsplit, hne⟩ := ih b0 m0 a0 hf
        exact ⟨by simp [hsplit], hne⟩

/-- The exec-loop decomposition concatenates back to its input, for any
fuel (fuel exhaustion only turns the tail into one big gap). -/
theorem joinPieces_scanAux : ∀ fuel cs, joinPieces (scanAux fuel cs) = cs := by
  intro fuel
  induction fuel with
  | zero => intro cs; simp [scanAux, joinPieces]
  | succ fuel ih =>
    intro cs
    simp only [scanAux]
    split
    · simp [joinPieces]
    · rename_i b m a hf
      simp only [joinPieces, ih a]
      obtain ⟨hsplit, _⟩ := findWidget_split cs b m a hf
      rw [hsplit]
      simp

/-- When the scanner finds nothing, the decomposition is a single gap. -/
theorem scanPieces_of_none (cs : List Char) (h : findWidget cs = none) :
    scanPieces cs = [Piece.gap cs] := by
  unfold scanPieces
  cases cs with
  | nil => rfl
  | cons c cs => simp [scanAux, h]

/-- Running one more tick is the same as ticking after the run. -/
theorem iterTick_succ (text : List Char) : ∀ n s,
    iterTick text (n + 1) s = twTick text (iterTick text n s) := by
  intro n
  induction n with
  | zero => intro s; rfl
  | succ n ih =>
    intro s
    have h1 : iterTick text (n + 1 + 1) s = iterTick text (n + 1) (twTick text s) := rfl
    rw [h1, ih (twTick text s)]
    rfl

/-- After k ticks (k at most the text length) the enabled typewriter
displays exactly the k-character prefix, is not complete, and still owns
its timer. -/
theorem twReveal (text : List Char) : ∀ k, k ≤ text.length →
    iterTick text k (useTypewriterInit text true) =
      { displayedText := text.take k, isComplete := false, currentIndex := k,
        timerActive := true } := by
  intro k
  induction k with
  | zero => intro _; simp [iterTick, useTypewriterInit]
  | succ k ih =>
    intro hk
    rw [iterTick_succ, ih (Nat.le_of_succ_le hk)]
    simp [twTick, Nat.lt_of_succ_le hk]

/-- One tick past the text length, the enabled typewriter is complete
with the full text displayed and its timer cleared. -/
theorem twComplete (text : List Char) :
    iterTick text (text.length + 1) (useTypewriterInit text true) =
      { displayedText := text, isComplete := true, currentIndex := text.length,
        timerActive := false } := by
  rw [iterTick_succ, twReveal text text.length (Nat.le_refl _)]
  simp [twTick]

/-- Every message coming out of the flag-clearing map is unflagged. -/
theorem clearNew_false (ms : List Msg) : ∀ m ∈ clearNew ms, m.isNew = false := by
  intro m hm
  simp only [clearNew, List.mem_map] at hm
  obtain ⟨m0, _, h⟩ := hm
  rw [← h]

/-- Trimming produces a subsequence of the original string. -/
theorem jsTrim_sublist (t : List Char) : List.Sublist (jsTrim t) t := by
  unfold jsTrim
  have h1 : List.Sublist (t.dropWhile jsWs) t := List.dropWhile_sublist jsWs
  have h2 : List.Sublist ((t.dropWhile jsWs).reverse.dropWhile jsWs)
      (t.dropWhile jsWs).reverse := List.dropWhile_sublist jsWs
  have h3 := List.Sublist.reverse h2
  rw [List.reverse_reverse] at h3
  exact List.Sublist.trans h3 h1

/-- The concatenated token spans of a piece list form a subsequence of
its raw characters: a gap contributes at most its trimmed self and a
match contributes at most itself. -/
theorem spanJoin_sublist : ∀ ps, List.Sublist (spanJoin ps) (joinPieces ps) := by
  intro ps
  induction ps with
  | nil => exact List.Sublist.refl []
  | cons p ps ih =>
    cases p with
    | gap t =>
      simp only [spanJoin, joinPieces, spanChars]
      refine List.Sublist.append ?_ ih
      by_cases h : jsTrim t = []
      · rw [if_pos h]; exact List.nil_sublist t
      · rw [if_neg h]; exact jsTrim_sublist t
    | mat m =>
      simp only [spanJoin, joinPieces, spanChars]
      refine List.Sublist.append ?_ ih
      by_cases h : (parseWidget m).isEmpty = true
      · rw [if_pos h]; exact List.nil_sublist m
      · rw [if_neg h]

-- ============ CLAIM THEOREMS ============

/-- Claim C1, counterexample: concatenating the emitted token spans (text
tokens contributing their payload, widget tokens their matched tag
substring) does not reconstruct the input c1ex — the single spaces
around the widget are trimmed away. -/
theorem c1_counterexample : spanJoin (scanPieces c1ex) ≠ c1ex := by decide

/-- Claim C1 (amended): the combined scan itself is an exact partition —
concatenating the raw gap segments and the matched tag substrings, in
order, reconstructs every input exactly once, with no character dropped
or duplicated and no match used twice — and the concatenation of the
emitted tokens' own spans is always a subsequence of the input: tokens
never duplicate, reorder or double-emit characters, but can drop both
boundary whitespace (gap trimming) and the characters of a matched tag
whose attribute parse fails. -/
theorem c1_partition_amended : ∀ cs,
    joinPieces (scanPieces cs) = cs ∧ List.Sublist (spanJoin (scanPieces cs)) cs := by
  intro cs
  have hp : joinPieces (scanPieces cs) = cs := joinPieces_scanAux cs.length cs
  refine ⟨hp, ?_⟩
  have hs := spanJoin_sublist (scanPieces cs)
  rw [hp] at hs
  exact hs

/-- Claim C2, code bug witness: on c2ex the combined detector matches the
malformed tag, its specific attribute parse fails, and the characters of
the tag are silently dropped — the output holds only the two surrounding
text tokens. -/
theorem c2_malformed_dropped :
    parseMessageContent c2ex =
      [ParsedContent.text "x".toList, ParsedContent.text "y".toList] := by decide

/-- Claim C3, counterexample: the markup-free input c3ex (a letter with
surrounding spaces) parses to one text token holding the trimmed text,
not the input unchanged. -/
theorem c3_counterexample :
    findWidget c3ex = none ∧
    parseMessageContent c3ex = [ParsedContent.text "a".toList] ∧
    "a".toList ≠ c3ex := by decide

/-- Claim C3 (amended): when the combined scanner finds no widget markup,
the parser yields exactly one text token; its payload is the trimmed
input when that is nonempty, and the input unchanged (the untrimmed
single-token fallback) only when the input is empty or whitespace-only. -/
theorem c3_noMarkup_amended (cs : List Char) (h : findWidget cs = none) :
    parseMessageContent cs =
      [ParsedContent.text (if jsTrim cs = [] then cs else jsTrim cs)] := by
  have hp : parseParts cs = emitGap cs := by
    unfold parseParts
    rw [scanPieces_of_none cs h]
    simp [emitAll, emitPiece]
  unfold parseMessageContent
  rw [hp]
  by_cases ht : jsTrim cs = []
  · simp [emitGap, ht]
  · simp [emitGap, ht]

/-- Claim C3 witness: the unrecognized tag-looking string of scenario B
has no scanner match and comes back as a single unchanged text token. -/
theorem c3_witness :
    findWidget c3foo = none ∧
    parseMessageContent c3foo =
      [ParsedContent.text (if jsTrim c3foo = [] then c3foo else jsTrim c3foo)] :=
  ⟨by decide, c3_noMarkup_amended c3foo (by decide)⟩

/-- Claim C4: the parser is total and never returns an empty token list;
when the loop produced no tokens at all, the fallback emits the single
text token holding the whole input. -/
theorem c4_total_nonempty (cs : List Char) :
    parseMessageContent cs ≠ [] ∧
    (parseParts cs = [] → parseMessageContent cs = [ParsedContent.text cs]) := by
  unfold parseMessageContent
  by_cases h : (parseParts cs).isEmpty = true
  · rw [if_pos h]
    exact ⟨by simp, fun _ => rfl⟩
  · rw [if_neg h]
    constructor
    · intro hnil
      exact h (by rw [hnil]; rfl)
    · intro hp
      exact absurd (by rw [hp]; rfl) h

/-- Claim C4 witness: whitespace-only input takes the fallback branch. -/
theorem c4_witness :
    parseParts c4ws = [] ∧ parseMessageContent c4ws = [ParsedContent.text c4ws] :=
  ⟨by decide, (c4_total_nonempty c4ws).2 (by decide)⟩

/-- Claim C5: scenario A parses into exactly these five tokens in this
order: text, progress bar (color red), text, agent icon, text. -/
theorem c5_scenarioA :
    parseMessageContent c5ex =
      [ParsedContent.text "Weakness score is".toList,
       ParsedContent.progress "Exploit".toList 72 "red".toList,
       ParsedContent.text ". Watch their".toList,
       ParsedContent.agent "Jett".toList,
       ParsedContent.text "player.".toList] := by decide

/-- Claim C6, code bug witness: c6ex is a single wholly well-formed
ProgressBar tag (the anchored attribute pattern consumes it entirely,
capturing the label with its GT character and value 5 with no color),
yet the parser returns one text token holding the raw string, because
the combined detector stops its match at the first GT and finds
nothing. -/
theorem c6_wellformed_gt_bug :
    pbAt c6ex = some (⟨"a>b".toList, 5, none⟩, []) ∧
    parseMessageContent c6ex = [ParsedContent.text c6ex] := by decide

/-- Claim C7: with animation enabled the typewriter displays, after k of
at most N ticks, exactly the k-character prefix (so the N+1 reveal
states are distinct, strictly growing prefixes), reaches the complete
state with the full text and a cleared timer one tick past N, never
changes state again once cancelled, and with animation disabled is
immediately complete with the full text and no timer. -/
theorem c7_typewriter (text : List Char) (j k : Nat) (s : TWState)
    (hjk : j < k) (hk : k ≤ text.length) :
    (iterTick text j (useTypewriterInit text true)).displayedText = text.take j ∧
    (iterTick text k (useTypewriterInit text true)).displayedText = text.take k ∧
    (text.take j).length < (text.take k).length ∧
    text.take j = (text.take k).take j ∧
    iterTick text (text.length + 1) (useTypewriterInit text true) =
      { displayedText := text, isComplete := true, currentIndex := text.length,
        timerActive := false } ∧
    twTick text (twCancel s) = twCancel s ∧
    useTypewriterInit text false =
      { displayedText := text, isComplete := true, currentIndex := 0,
        timerActive := false } := by
  have hj : j ≤ text.length := Nat.le_trans (Nat.le_of_lt hjk) hk
  refine ⟨?_, ?_, ?_, ?_, twComplete text, ?_, rfl⟩
  · rw [twReveal text j hj]
  · rw [twReveal text k hk]
  · rw [List.length_take, List.length_take, Nat.min_eq_left hj, Nat.min_eq_left hk]
    exact hjk
  · rw [List.take_take, Nat.min_eq_left (Nat.le_of_lt hjk)]
  · simp [twTick, twCancel]

/-- Claim C7 witness: the two-character text at ticks 0 and 2, its
completion one tick later, a cancelled mid-reveal state, and the
disabled invocation. -/
theorem c7_witness :
    (iterTick "ab".toList 0 (useTypewriterInit "ab".toList true)).displayedText =
      "ab".toList.take 0 ∧
    (iterTick "ab".toList 2 (useTypewriterInit "ab".toList true)).displayedText =
      "ab".toList.take 2 ∧
    ("ab".toList.take 0).length < ("ab".toList.take 2).length ∧
    "ab".toList.take 0 = ("ab".toList.take 2).take 0 ∧
    iterTick "ab".toList ("ab".toList.length + 1) (useTypewriterInit "ab".toList true) =
      TWState.mk "ab".toList true "ab".toList.length false ∧
    twTick "ab".toList (twCancel (TWState.mk "a".toList false 1 true)) =
      twCancel (TWState.mk "a".toList false 1 true) ∧
    useTypewriterInit "ab".toList false = TWState.mk "ab".toList true 0 false :=
  c7_typewriter "ab".toList 0 2 (TWState.mk "a".toList false 1 true)
    (by decide) (by decide)

/-- Claim C8, counterexample: after the welcome message, one send and its
assistant reply, the store is reachable and still carries the isNew flag
on the user message — the flag is not restricted to the newest assistant
message. -/
theorem c8_counterexample :
    ChatReachable c8ex ∧ Msg.mk Role.user "u".toList true ∈ c8ex.messages := by
  constructor
  · exact ChatReachable.step
      (ChatReachable.step
        (ChatReachable.step ChatReachable.init (ChatStep.welcome "w".toList false))
        (ChatStep.send "u".toList [⟨Role.assistant, "w".toList, true⟩]))
      (ChatStep.replyOk "r".toList
        (clearNew [⟨Role.assistant, "w".toList, true⟩] ++ [⟨Role.user, "u".toList, true⟩]))
  · decide

/-- Claim C8 (amended): in every reachable store state the flagged
messages form a contiguous suffix of the list — everything before the
suffix is unflagged, so no flagged message is older than an unflagged
one — and that suffix holds at most one user message (the one appended
by the most recent send); flags are cleared en masse when the next send
begins, not when a message is rendered. -/
theorem c8_flag_invariant (st : ChatState) (h : ChatReachable st) : ChatInv st.messages := by
  induction h with
  | init => exact ⟨[], [], by simp, by simp, by simp, by simp⟩
  | step hr hs ih =>
    cases hs with
    | welcome c l =>
      refine ⟨[], [⟨Role.assistant, c, true⟩], by simp, by simp, ?_, by simp⟩
      intro m hm
      simp at hm
      subst hm
      rfl
    | send t ms =>
      refine ⟨clearNew ms, [⟨Role.user, t, true⟩], rfl, clearNew_false ms, ?_, by simp⟩
      intro m hm
      simp at hm
      subst hm
      rfl
    | replyOk t ms =>
      obtain ⟨a, b, heq, ha, hb, hcount⟩ := ih
      refine ⟨a, b ++ [⟨Role.assistant, t, true⟩], ?_, ha, ?_, ?_⟩
      · rw [show (ChatState.mk ms true).messages = ms from rfl] at heq
        rw [show (ChatState.mk (ms ++ [⟨Role.assistant, t, true⟩]) false).messages =
          ms ++ [⟨Role.assistant, t, true⟩] from rfl, heq, List.append_assoc]
      · intro m hm
        rcases List.mem_append.mp hm with h1 | h2
        · exact hb m h1
        · simp at h2
          subst h2
          rfl
      · rw [List.filter_append]
        have hx : List.filter (fun m => decide (m.role = Role.user))
            [(⟨Role.assistant, t, true⟩ : Msg)] = [] := rfl
        rw [hx, List.append_nil]
        exact hcount
    | replyErr ms =>
      obtain ⟨a, b, heq, ha, hb, hcount⟩ := ih
      refine ⟨a, b ++ [⟨Role.assistant, chatErrText, true⟩], ?_, ha, ?_, ?_⟩
      · rw [show (ChatState.mk ms true).messages = ms from rfl] at heq
        rw [show (ChatState.mk (ms ++ [⟨Role.assistant, chatErrText, true⟩]) false).messages =
          ms ++ [⟨Role.assistant, chatErrText, true⟩] from rfl, heq, List.append_assoc]
      · intro m hm
        rcases List.mem_append.mp hm with h1 | h2
        · exact hb m h1
        · simp at h2
          subst h2
          rfl
      · rw [List.filter_append]
        have hx : List.filter (fun m => decide (m.role = Role.user))
            [(⟨Role.assistant, chatErrText, true⟩ : Msg)] = [] := rfl
        rw [hx, List.append_nil]
        exact hcount
    | clear ms l => exact ⟨[], [], by simp, by simp, by simp, by simp⟩

/-- Claim C8 witness: the invariant at the concrete reachable state of
welcome, send, reply. -/
theorem c8_witness : ChatInv c8ex.messages :=
  c8_flag_invariant c8ex
    (ChatReachable.step
      (ChatReachable.step
        (ChatReachable.step ChatReachable.init (ChatStep.welcome "w".toList false))
        (ChatStep.send "u".toList [⟨Role.assistant, "w".toList, true⟩]))
      (ChatStep.replyOk "r".toList
        (clearNew [⟨Role.assistant, "w".toList, true⟩] ++ [⟨Role.user, "u".toList, true⟩])))

/-- Claim C9, code bug witness: the name Constructor is not in the
table, yet its lowercased property read hits the constructor member
inherited from Object.prototype — a truthy non-icon value that bypasses
the logical-or, so the fallback crosshair glyph is not produced;
meanwhile a mixed-case known name selects its glyph and an ordinary
unknown name does reach the crosshair fallback. -/
theorem c9_proto_bug :
    agentIconFor "Constructor".toList = IconVal.inherited "constructor".toList ∧
    agentIconFor "JeTT".toList = IconVal.icon Glyph.zap ∧
    agentIconFor "Viper".toList = IconVal.icon Glyph.crosshair := by decide

/-- Claim C10: the empty string parses to exactly one text token whose
content is the empty string, via the single-token fallback. -/
theorem c10_empty :
    parseMessageContent "".toList = [ParsedContent.text "".toList] := by decide
